import Mathlib

/-!
credhub-cli: the secret request executor and the target-setting command

Shallow embedding of `repositories/secret_repository.go` (`SendRequest`) and,
for the `api` command whose implementation is exercised by
`commands/api_test.go`, a model of the target resolver.

Go values are embedded as follows.
* A Go `error` is an `Option Err`: `none` is the nil error.
* A `*http.Response` is an `Option (Response Body)`: `none` is the nil pointer.
* `httpClient.Do` is a state-passing function on the transport state `σ`,
  returning the pair `(response, err)` exactly as Go does (both components
  may be nil or non-nil independently).
* Dereferencing a nil response is the outcome `Outcome.nilDereference`.
* Every call that leaves `SendRequest` is recorded, in order, in `Run.calls`.
* `response.Body` is a value of the type `Body` in `SendRequest`; where the nil
  `Body` matters, `SendRequestNilBody` takes it as an `Option`.
* The JSON decoder is a parameter of `SendRequest`; where the text of the body
  matters, the scanner of `encoding/json` is embedded in the namespace `Json`.
-/

namespace Repositories

/-- The fields of `http.Response` that `SendRequest` reads. -/
structure Response (Body : Type) where
  StatusCode : Int
  Body : Body

/-- The calls `SendRequest` makes to its collaborators. -/
inductive Call (Req Body : Type) where
  | Do (request : Req)
  | NewNetworkError
  | ParseError (body : Body)
  | Decode (body : Body)
deriving DecidableEq, Repr

/-- Is the call a call of the transport. -/
def Call.isDo {Req Body : Type} : Call Req Body → Bool
  | .Do _ => true
  | _ => false

/-- Is the call a call of `errors.NewNetworkError`. -/
def Call.isNewNetworkError {Req Body : Type} : Call Req Body → Bool
  | .NewNetworkError => true
  | _ => false

/-- Is the call a call of `errors.ParseError`. -/
def Call.isParseError {Req Body : Type} : Call Req Body → Bool
  | .ParseError _ => true
  | _ => false

/-- Is the call a call of the JSON decoder. -/
def Call.isDecode {Req Body : Type} : Call Req Body → Bool
  | .Decode _ => true
  | _ => false

/-- Interface `client.HttpClient`: `Do(request) (*http.Response, error)`, acting on
the transport state. -/
structure HttpClient (σ Req Body Err : Type) where
  Do : Req → σ → (Option (Response Body) × Option Err) × σ

/-- The struct `secretRepository`. -/
structure secretRepository (σ Req Body Err : Type) where
  httpClient : HttpClient σ Req Body Err

/-- The constructor `NewSecretRepository`. -/
def NewSecretRepository {σ Req Body Err : Type} (httpClient : HttpClient σ Req Body Err) :
    secretRepository σ Req Body Err :=
  { httpClient := httpClient }

/-- The packages `SendRequest` imports, taken as parameters:
`errors.NewNetworkError()`, `errors.ParseError(body)`, the zero value
`models.SecretBody{}` and `json.NewDecoder(body).Decode(&v)`, which maps the
value `v` found in the target to the value left there, together with the
decoder's own error. -/
structure Env (Body Err SecretBody : Type) where
  NewNetworkError : Option Err
  ParseError : Body → Option Err
  zero : SecretBody
  Decode : Body → SecretBody → SecretBody × Option Err

/-- The two steps of `(*json.Decoder).Decode` in `encoding/json`: `readValue`
scans the next JSON value off the stream and fails (malformed text, or end of
input before a value) before anything is stored; only a scanned value is
unmarshalled into the target, which may itself stop with an error after
storing some fields. -/
def jsonDecode {Body Err Raw SecretBody : Type} (readValue : Body → Except Err Raw)
    (unmarshal : Raw → SecretBody → SecretBody × Option Err) (body : Body) (v : SecretBody) :
    SecretBody × Option Err :=
  match readValue body with
  | .error e => (v, some e)
  | .ok raw => unmarshal raw v

/-- What a call of `SendRequest` ends in: the returned pair, or a nil pointer
dereference. -/
inductive Outcome (SecretBody Err : Type) where
  | returned (secretBody : SecretBody) (err : Option Err)
  | nilDereference
deriving DecidableEq, Repr

/-- A completed call of `SendRequest`: its outcome, the calls it made and the
transport state it leaves. -/
structure Run (σ Req Body Err SecretBody : Type) where
  outcome : Outcome SecretBody Err
  calls : List (Call Req Body)
  transport : σ

/-- The method `secretRepository.SendRequest`. -/
def secretRepository.SendRequest {σ Req Body Err SecretBody : Type}
    (r : secretRepository σ Req Body Err) (env : Env Body Err SecretBody)
    (request : Req) (s : σ) : Run σ Req Body Err SecretBody :=
  match r.httpClient.Do request s with
  | ((response, err), s1) =>
    match err with
    | some _ =>
      { outcome := .returned env.zero env.NewNetworkError
        calls := [.Do request, .NewNetworkError]
        transport := s1 }
    | none =>
      match response with
      | none =>
        { outcome := .nilDereference
          calls := [.Do request]
          transport := s1 }
      | some response =>
        if response.StatusCode < 200 ∨ response.StatusCode > 299 then
          { outcome := .returned env.zero (env.ParseError response.Body)
            calls := [.Do request, .ParseError response.Body]
            transport := s1 }
        else
          { outcome := .returned (env.Decode response.Body env.zero).1 none
            calls := [.Do request, .Decode response.Body]
            transport := s1 }

/-! ### A concrete transport and environment

Requests, bodies and errors are strings; a secret body is a list of fields.
The transport counts its calls and answers by the request it is given. -/

/-- A transport answering according to the request text. -/
def sampleClient : HttpClient Nat String String String where
  Do := fun request n =>
    if request = "refused" then ((none, some "dial tcp: connection refused"), n + 1)
    else if request = "refused-with-response" then
      ((some ⟨200, "\x7b\"value\":\"v\"\x7d"⟩, some "unexpected EOF"), n + 1)
    else if request = "nil" then ((none, none), n + 1)
    else if request = "missing" then ((some ⟨404, "\x7b\"error\":\"not found\"\x7d"⟩, none), n + 1)
    else if request = "low" then ((some ⟨199, "\x7b\"value\":\"v\"\x7d"⟩, none), n + 1)
    else if request = "high" then ((some ⟨300, "\x7b\"value\":\"v\"\x7d"⟩, none), n + 1)
    else if request = "empty" then ((some ⟨200, ""⟩, none), n + 1)
    else if request = "last" then ((some ⟨299, "\x7b\"value\":\"v\"\x7d"⟩, none), n + 1)
    else ((some ⟨200, "\x7b\"value\":\"v\"\x7d"⟩, none), n + 1)

/-- A scan of the next value off the stream: the empty body ends the stream,
one body is a complete value, anything else is malformed. -/
def sampleReadValue (body : String) : Except String String :=
  if body = "" then .error "EOF"
  else if body = "\x7b\"value\":\"v\"\x7d" then .ok body
  else .error "invalid character"

/-- Storing the scanned value of `sampleReadValue` in the target. -/
def sampleUnmarshal (_raw : String) (v : List (String × String)) :
    List (String × String) × Option String :=
  (("value", "v") :: v, none)

/-- An environment over strings. -/
def sampleEnv : Env String String (List (String × String)) where
  NewNetworkError := some "No response received for the command."
  ParseError := fun body => some body
  zero := []
  Decode := jsonDecode sampleReadValue sampleUnmarshal

end Repositories

namespace Commands

/-- Modelled from the spec: the persisted target record of §3 (the `config`
package is not among the sources). -/
structure TargetRecord where
  ApiURL : String
  AuthURL : String
  AuthClientID : String
deriving DecidableEq, Repr

/-- Modelled from the spec: the `auth-server` block of the info response (§3, §6). -/
structure AuthServer where
  URL : String
  ClientID : String
deriving DecidableEq, Repr

/-- Modelled from the spec: the value decoded from the info probe (§3). -/
structure InfoResponse where
  AppVersion : String
  AppName : String
  AuthServer : AuthServer
deriving DecidableEq, Repr

/-- Modelled from the spec: what the probe `GET <base>/info` comes back with (§4.1):
no response at all, or a status and a body. -/
inductive ProbeResult where
  | networkFailure
  | response (status : Nat) (body : String)
deriving DecidableEq, Repr

/-- Modelled from the spec: the collaborators of the target resolver (§2): the
transport issuing the probe with peer verification disabled, and the decoding
of a probe body into an `InfoResponse`. -/
structure Collaborators where
  probe : String → ProbeResult
  decodeInfo : String → Option InfoResponse

/-- What one invocation of the command line shows: exit status, standard
output and standard error, as `api_test.go` observes them through `runCommand`. -/
structure Session where
  exitCode : Nat
  out : List String
  err : List String
deriving DecidableEq, Repr

/-- The fixed validation-failure message (§4.1; `api_test.go`, line 131). -/
def invalidTargetMessage : String :=
  "The targeted API does not appear to be valid."

/-- The fixed insecure-HTTP warning (§4.1; `api_test.go`, lines 200-201). -/
def insecureWarning : String :=
  "Warning: Insecure HTTP API detected. Data sent to this API could be intercepted" ++
    " in transit by third parties. Secure HTTPS API endpoints are recommended."

/-- Do the characters start with the separator `://` of §6
(`<scheme>://<host>[:port]`). -/
def startsWithSeparator : List Char → Bool
  | a :: b :: c :: _ => a == ':' && b == '/' && c == '/'
  | _ => false

/-- The characters before the first `://`, when the separator occurs. -/
def schemeChars : List Char → Option (List Char)
  | [] => none
  | c :: cs =>
    if startsWithSeparator (c :: cs) then some []
    else (schemeChars cs).map (fun s => c :: s)

/-- Modelled from the spec: the scheme a target specifies (§4.1, §6): the
non-empty text in front of its first `://`; a target without such a text
specifies no scheme. The `api` command is not among the sources. -/
def schemeOf (target : String) : Option String :=
  match schemeChars target.data with
  | some (c :: cs) => some (String.mk (c :: cs))
  | _ => none

/-- Modelled from the spec: scheme determination (§4.1): a target that specifies
a scheme is used verbatim, any other gets `https`. -/
def resolveBase (rawTarget : String) : String :=
  match schemeOf rawTarget with
  | some _ => rawTarget
  | none => "https://" ++ rawTarget

/-- Modelled from the spec: the probe URL `<resolved-base>/info` (§4.1, §6). -/
def probeURL (rawTarget : String) : String :=
  resolveBase rawTarget ++ "/info"

/-- Modelled from the spec: validation of the probe (§4.1): HTTP 200 and a body
that decodes into an `InfoResponse` with a non-empty `AuthServer.URL`; any other
outcome is a validation failure. -/
def validate (c : Collaborators) : ProbeResult → Option InfoResponse
  | .networkFailure => none
  | .response status body =>
    if status = 200 then
      match c.decodeInfo body with
      | some info => if info.AuthServer.URL = "" then none else some info
      | none => none
    else none

/-- Modelled from the spec: the target-setting command `api` (§4.1, §6), acting on
the content of the Config Store. The empty `rawTarget` is the read path. The
command's implementation is not among the sources; `api_test.go` is its test. -/
def api (c : Collaborators) (rawTarget : String) (store : Option TargetRecord) :
    Session × Option TargetRecord :=
  if rawTarget = "" then
    match store with
    | some record => ({ exitCode := 0, out := [record.ApiURL], err := [] }, store)
    | none => ({ exitCode := 0, out := [], err := [] }, store)
  else
    match validate c (c.probe (probeURL rawTarget)) with
    | none => ({ exitCode := 1, out := [], err := [invalidTargetMessage] }, store)
    | some info =>
      ({ exitCode := 0
         out := resolveBase rawTarget ::
           (if schemeOf (resolveBase rawTarget) = some "http" then [insecureWarning] else [])
         err := [] },
       some { ApiURL := resolveBase rawTarget
              AuthURL := info.AuthServer.URL
              AuthClientID := info.AuthServer.ClientID })

/-- The servers of `api_test.go`: a good server answering 200 with an info
body, and a bad server answering 404 with an empty body. -/
def testServers : Collaborators where
  probe := fun url =>
    if url = "https://127.0.0.1:8844/info" then .response 200 "info"
    else if url = "http://127.0.0.1:8080/info" then .response 200 "info"
    else if url = "https://127.0.0.1:9999/info" then .response 404 ""
    else .networkFailure
  decodeInfo := fun body =>
    if body = "info" then
      some { AppVersion := "0.1.0 build DEV"
             AppName := "Pivotal Credential Manager"
             AuthServer := { URL := "https://example.com", ClientID := "bar" } }
    else none

/-- The record persisted by targeting the good server of `api_test.go`. -/
def goodRecord : TargetRecord :=
  { ApiURL := "https://127.0.0.1:8844", AuthURL := "https://example.com", AuthClientID := "bar" }

end Commands

/-! ### The JSON scanner of `encoding/json`

`SendRequest` decodes with `json.NewDecoder(response.Body).Decode(&secretBody)`.
What the decoder makes of a body that is not valid JSON is decided by the
scanner of `encoding/json` (`scanner.go`) and by `(*Decoder).readValue`
(`stream.go`), embedded here over the characters of the body. -/

namespace Json

/-- The codes a scanner step returns (`scanner.go`). -/
inductive ScanCode where
  | scanContinue
  | scanBeginLiteral
  | scanBeginObject
  | scanObjectKey
  | scanObjectValue
  | scanEndObject
  | scanBeginArray
  | scanArrayValue
  | scanEndArray
  | scanSkipSpace
  | scanEnd
  | scanError
deriving DecidableEq, Repr

/-- The entries of the scanner's `parseState` stack. -/
inductive ParseState where
  | parseObjectKey
  | parseObjectValue
  | parseArrayValue
deriving DecidableEq, Repr

/-- The state functions a scanner's `step` field can hold. -/
inductive StepFn where
  | stateBeginValueOrEmpty
  | stateBeginValue
  | stateBeginStringOrEmpty
  | stateBeginString
  | stateEndValue
  | stateEndTop
  | stateInString
  | stateInStringEsc
  | stateInStringEscU
  | stateInStringEscU1
  | stateInStringEscU12
  | stateInStringEscU123
  | stateNeg
  | state1
  | state0
  | stateDot
  | stateDot0
  | stateE
  | stateESign
  | stateE0
  | stateT
  | stateTr
  | stateTru
  | stateF
  | stateFa
  | stateFal
  | stateFals
  | stateN
  | stateNu
  | stateNul
  | stateError
deriving DecidableEq, Repr

/-- The struct `scanner` of `encoding/json`: the next state function, whether
the top-level value has ended, the stack of open composites (innermost first)
and whether an error has been recorded. The nesting limit of later Go versions
is left out. -/
structure scanner where
  step : StepFn
  endTop : Bool
  parseState : List ParseState
  err : Bool
deriving DecidableEq, Repr

/-- The scanner after `reset`. -/
def scanner.reset : scanner :=
  { step := .stateBeginValue, endTop := false, parseState := [], err := false }

/-- The method `error`: record a syntax error and stay in `stateError`. -/
def scanner.error (s : scanner) : ScanCode × scanner :=
  (.scanError, { s with step := .stateError, err := true })

/-- The function `isSpace`. -/
def isSpace (c : Char) : Bool :=
  c == ' ' || c == '\t' || c == '\r' || c == '\n'

/-- Is the byte a decimal digit from `lo` to 9. -/
def isDigitFrom (lo : Nat) (c : Char) : Bool :=
  decide (48 + lo ≤ c.toNat) && decide (c.toNat ≤ 57)

/-- Is the byte a hexadecimal digit. -/
def isHex (c : Char) : Bool :=
  isDigitFrom 0 c || (decide (97 ≤ c.toNat) && decide (c.toNat ≤ 102)) ||
    (decide (65 ≤ c.toNat) && decide (c.toNat ≤ 70))

/-- The method `pushParseState`. -/
def scanner.pushParseState (s : scanner) (newParseState : ParseState)
    (successState : ScanCode) : ScanCode × scanner :=
  (successState, { s with parseState := newParseState :: s.parseState })

/-- The method `popParseState`. -/
def scanner.popParseState (s : scanner) : scanner :=
  match s.parseState.tail with
  | [] => { s with parseState := [], step := .stateEndTop, endTop := true }
  | p :: rest => { s with parseState := p :: rest, step := .stateEndValue }

/-- The state after the top-level value: a non-space byte is recorded as an
error for the next call, the code is `scanEnd` either way. -/
def stateEndTop (s : scanner) (c : Char) : ScanCode × scanner :=
  if isSpace c then (.scanEnd, s) else (.scanEnd, s.error.2)

/-- The state after a completed value. -/
def stateEndValue (s : scanner) (c : Char) : ScanCode × scanner :=
  match s.parseState with
  | [] => stateEndTop { s with step := .stateEndTop, endTop := true } c
  | ps :: rest =>
    if isSpace c then (.scanSkipSpace, { s with step := .stateEndValue })
    else
      match ps with
      | .parseObjectKey =>
        if c == ':' then
          (.scanObjectKey,
            { s with parseState := .parseObjectValue :: rest, step := .stateBeginValue })
        else s.error
      | .parseObjectValue =>
        if c == ',' then
          (.scanObjectValue,
            { s with parseState := .parseObjectKey :: rest, step := .stateBeginString })
        else if c == '}' then (.scanEndObject, s.popParseState)
        else s.error
      | .parseArrayValue =>
        if c == ',' then (.scanArrayValue, { s with step := .stateBeginValue })
        else if c == ']' then (.scanEndArray, s.popParseState)
        else s.error

/-- The state at the beginning of a value. -/
def stateBeginValue (s : scanner) (c : Char) : ScanCode × scanner :=
  if isSpace c then (.scanSkipSpace, s)
  else if c == '\x7b' then
    scanner.pushParseState { s with step := .stateBeginStringOrEmpty } .parseObjectKey
      .scanBeginObject
  else if c == '[' then
    scanner.pushParseState { s with step := .stateBeginValueOrEmpty } .parseArrayValue
      .scanBeginArray
  else if c == '"' then (.scanBeginLiteral, { s with step := .stateInString })
  else if c == '-' then (.scanBeginLiteral, { s with step := .stateNeg })
  else if c == '0' then (.scanBeginLiteral, { s with step := .state0 })
  else if c == 't' then (.scanBeginLiteral, { s with step := .stateT })
  else if c == 'f' then (.scanBeginLiteral, { s with step := .stateF })
  else if c == 'n' then (.scanBeginLiteral, { s with step := .stateN })
  else if isDigitFrom 1 c then (.scanBeginLiteral, { s with step := .state1 })
  else s.error

/-- The state after `[`. -/
def stateBeginValueOrEmpty (s : scanner) (c : Char) : ScanCode × scanner :=
  if isSpace c then (.scanSkipSpace, s)
  else if c == ']' then stateEndValue s c
  else stateBeginValue s c

/-- The state after a comma in an object. -/
def stateBeginString (s : scanner) (c : Char) : ScanCode × scanner :=
  if isSpace c then (.scanSkipSpace, s)
  else if c == '"' then (.scanBeginLiteral, { s with step := .stateInString })
  else s.error

/-- The state after the opening brace of an object. -/
def stateBeginStringOrEmpty (s : scanner) (c : Char) : ScanCode × scanner :=
  if isSpace c then (.scanSkipSpace, s)
  else if c == '\x7d' then
    stateEndValue { s with parseState := .parseObjectValue :: s.parseState.tail } c
  else stateBeginString s c

/-- The state inside a string. -/
def stateInString (s : scanner) (c : Char) : ScanCode × scanner :=
  if c == '"' then (.scanContinue, { s with step := .stateEndValue })
  else if c == '\\' then (.scanContinue, { s with step := .stateInStringEsc })
  else if c.toNat < 32 then s.error
  else (.scanContinue, s)

/-- The state after a backslash in a string. -/
def stateInStringEsc (s : scanner) (c : Char) : ScanCode × scanner :=
  if c == 'b' || c == 'f' || c == 'n' || c == 'r' || c == 't' || c == '\\' || c == '/' ||
      c == '"' then
    (.scanContinue, { s with step := .stateInString })
  else if c == 'u' then (.scanContinue, { s with step := .stateInStringEscU })
  else s.error

/-- The states inside a `\u` escape: a hexadecimal digit leads to `next`. -/
def stateInStringEscHex (next : StepFn) (s : scanner) (c : Char) : ScanCode × scanner :=
  if isHex c then (.scanContinue, { s with step := next })
  else s.error

/-- The state after the digits of an exponent. -/
def stateE0 (s : scanner) (c : Char) : ScanCode × scanner :=
  if isDigitFrom 0 c then (.scanContinue, s)
  else stateEndValue s c

/-- The state after the sign of an exponent. -/
def stateESign (s : scanner) (c : Char) : ScanCode × scanner :=
  if isDigitFrom 0 c then (.scanContinue, { s with step := .stateE0 })
  else s.error

/-- The state after `e` or `E` in a number. -/
def stateE (s : scanner) (c : Char) : ScanCode × scanner :=
  if c == '+' || c == '-' then (.scanContinue, { s with step := .stateESign })
  else stateESign s c

/-- The state after the digits that follow a decimal point. -/
def stateDot0 (s : scanner) (c : Char) : ScanCode × scanner :=
  if isDigitFrom 0 c then (.scanContinue, s)
  else if c == 'e' || c == 'E' then (.scanContinue, { s with step := .stateE })
  else stateEndValue s c

/-- The state after a decimal point. -/
def stateDot (s : scanner) (c : Char) : ScanCode × scanner :=
  if isDigitFrom 0 c then (.scanContinue, { s with step := .stateDot0 })
  else s.error

/-- The state after a leading zero. -/
def state0 (s : scanner) (c : Char) : ScanCode × scanner :=
  if c == '.' then (.scanContinue, { s with step := .stateDot })
  else if c == 'e' || c == 'E' then (.scanContinue, { s with step := .stateE })
  else stateEndValue s c

/-- The state after a non-zero leading digit. -/
def state1 (s : scanner) (c : Char) : ScanCode × scanner :=
  if isDigitFrom 0 c then (.scanContinue, { s with step := .state1 })
  else state0 s c

/-- The state after a minus sign. -/
def stateNeg (s : scanner) (c : Char) : ScanCode × scanner :=
  if c == '0' then (.scanContinue, { s with step := .state0 })
  else if isDigitFrom 1 c then (.scanContinue, { s with step := .state1 })
  else s.error

/-- The states inside `true`, `false` and `null`: the byte `want` leads to `next`. -/
def stateLiteral (want : Char) (next : StepFn) (s : scanner) (c : Char) : ScanCode × scanner :=
  if c == want then (.scanContinue, { s with step := next })
  else s.error

/-- The call `s.step(s, c)`: run the state function held by the scanner. -/
def scanner.run (s : scanner) (c : Char) : ScanCode × scanner :=
  match s.step with
  | .stateBeginValueOrEmpty => stateBeginValueOrEmpty s c
  | .stateBeginValue => stateBeginValue s c
  | .stateBeginStringOrEmpty => stateBeginStringOrEmpty s c
  | .stateBeginString => stateBeginString s c
  | .stateEndValue => stateEndValue s c
  | .stateEndTop => stateEndTop s c
  | .stateInString => stateInString s c
  | .stateInStringEsc => stateInStringEsc s c
  | .stateInStringEscU => stateInStringEscHex .stateInStringEscU1 s c
  | .stateInStringEscU1 => stateInStringEscHex .stateInStringEscU12 s c
  | .stateInStringEscU12 => stateInStringEscHex .stateInStringEscU123 s c
  | .stateInStringEscU123 => stateInStringEscHex .stateInString s c
  | .stateNeg => stateNeg s c
  | .state1 => state1 s c
  | .state0 => state0 s c
  | .stateDot => stateDot s c
  | .stateDot0 => stateDot0 s c
  | .stateE => stateE s c
  | .stateESign => stateESign s c
  | .stateE0 => stateE0 s c
  | .stateT => stateLiteral 'r' .stateTr s c
  | .stateTr => stateLiteral 'u' .stateTru s c
  | .stateTru => stateLiteral 'e' .stateEndValue s c
  | .stateF => stateLiteral 'a' .stateFa s c
  | .stateFa => stateLiteral 'l' .stateFal s c
  | .stateFal => stateLiteral 's' .stateFals s c
  | .stateFals => stateLiteral 'e' .stateEndValue s c
  | .stateN => stateLiteral 'u' .stateNu s c
  | .stateNu => stateLiteral 'l' .stateNul s c
  | .stateNul => stateLiteral 'l' .stateEndValue s c
  | .stateError => (.scanError, s)

/-- The method `eof`: the code at the end of the input. -/
def scanner.eof (s : scanner) : ScanCode :=
  if s.err then .scanError
  else if s.endTop then .scanEnd
  else if (s.run ' ').2.endTop then .scanEnd
  else .scanError

/-- The loop of `checkValid` over the bytes: the scanner after the last byte, or
`none` when a step reports `scanError`. -/
def checkValidLoop (s : scanner) : List Char → Option scanner
  | [] => some s
  | c :: cs =>
    match s.run c with
    | (.scanError, _) => none
    | (_, s1) => checkValidLoop s1 cs

/-- The function `checkValid`: is the whole text one JSON value. -/
def checkValid (data : List Char) : Bool :=
  match checkValidLoop scanner.reset data with
  | none => false
  | some s => s.eof != .scanError

/-- The function `Valid` of `encoding/json`, on the characters of a body. -/
def Valid (data : String) : Bool :=
  checkValid data.data

/-- The loop of `(*Decoder).readValue` over the bytes of the stream, `n` bytes
already taken, `seen` telling whether a non-space byte was among them: the
length of the next value, which ends before a byte answered by `scanEnd` or
with the bracket that closes the outermost composite; at the end of the stream
the scanner is fed a space. -/
def readValueLoop (s : scanner) (n : Nat) (seen : Bool) : List Char → Except String Nat
  | [] =>
    if (s.run ' ').1 = .scanEnd then .ok n
    else if seen then .error "unexpected EOF"
    else .error "EOF"
  | c :: cs =>
    match s.run c with
    | (.scanEnd, _) => .ok n
    | (.scanError, _) => .error "invalid character"
    | (.scanEndObject, s1) =>
      match stateEndValue s1 ' ' with
      | (.scanEnd, _) => .ok (n + 1)
      | (_, s2) => readValueLoop s2 (n + 1) (seen || !isSpace c) cs
    | (.scanEndArray, s1) =>
      match stateEndValue s1 ' ' with
      | (.scanEnd, _) => .ok (n + 1)
      | (_, s2) => readValueLoop s2 (n + 1) (seen || !isSpace c) cs
    | (_, s1) => readValueLoop s1 (n + 1) (seen || !isSpace c) cs

/-- The method `(*Decoder).readValue` on a fresh decoder over the body: the
text of the next value of the stream, or the error that ends the scan. -/
def readValue (body : String) : Except String String :=
  match readValueLoop scanner.reset 0 false body.data with
  | .ok n => .ok (String.mk (body.data.take n))
  | .error e => .error e

/-- What a step from a scanner without error and before the end of the
top-level value can give: an error, the end of the value, a closing bracket
(of the outermost composite, or of an inner one with the scanner going on as it
is), or any other code with the scanner going on. -/
def StepOK (r : ScanCode × scanner) : Prop :=
  r.1 = .scanError ∨ r.1 = .scanEnd ∨
  ((r.1 = .scanEndObject ∨ r.1 = .scanEndArray) ∧
    ((stateEndValue r.2 ' ').1 = .scanEnd ∨
      (stateEndValue r.2 ' ' = (.scanSkipSpace, r.2) ∧ r.2.err = false ∧ r.2.endTop = false))) ∨
  (r.1 ≠ .scanEndObject ∧ r.1 ≠ .scanEndArray ∧ r.2.err = false ∧ r.2.endTop = false)

end Json

namespace Repositories

/-- The call `json.NewDecoder(body).Decode(&v)` with the scan of `encoding/json`.
`(*Decoder).Decode` runs `n, err := dec.readValue()` and returns `err` at once
when the scan fails, before anything is stored; otherwise it unmarshals the `n`
bytes of the value into `v` and looks no further into the stream. The storing
is the parameter `unmarshal`, the struct `models.SecretBody` not being among
the sources. -/
def goDecode {SecretBody : Type} (unmarshal : String → SecretBody → SecretBody × Option String) :
    String → SecretBody → SecretBody × Option String :=
  jsonDecode Json.readValue unmarshal

/-- Modelled from the spec: a `SecretBody` is structurally a mapping (§3), here a
list of members. The storing of the one object text the example below decodes:
its member `value` is stored; no other text is interpreted. -/
def valueUnmarshal (raw : String) (v : List (String × String)) :
    List (String × String) × Option String :=
  if raw = "\x7b\"value\":\"v\"\x7d" then (("value", "v") :: v, none) else (v, none)

/-- An environment over strings that decodes with `goDecode`. -/
def goEnv : Env String String (List (String × String)) where
  NewNetworkError := some "No response received for the command."
  ParseError := fun body => some body
  zero := []
  Decode := goDecode valueUnmarshal

/-- A transport that answers every request with the given status and body and
no error. -/
def respondingClient {Body : Type} (status : Int) (body : Body) :
    HttpClient Nat String Body String where
  Do := fun _ n => ((some ⟨status, body⟩, none), n + 1)

/-- The ways a call of `SendRequest` can panic: the status read on a nil
response, the decoder's read on a nil `Body`, and `errors.ParseError` on a nil
`Body`. -/
inductive Panic where
  | nilResponse
  | nilBody
  | parseError
deriving DecidableEq, Repr

/-- What a call of `SendRequest` ends in when the `Body` of a response may be nil. -/
inductive Result (SecretBody Err : Type) where
  | returned (secretBody : SecretBody) (err : Option Err)
  | panicked (p : Panic)
deriving DecidableEq, Repr

/-- The method `secretRepository.SendRequest` on responses whose `Body` is the
interface value it is in Go: `none` is the nil interface. `Decode` reads from
the body (`dec.r.Read` in `refill`), which on a nil interface is a nil
dereference. What `errors.ParseError` does with a nil body is the parameter
`parseErrorNil` (`none`: it panics), the package not being among the sources.
On a non-nil body both behave as in `Env`. -/
def secretRepository.SendRequestNilBody {σ Req Body Err SecretBody : Type}
    (r : secretRepository σ Req (Option Body) Err) (env : Env Body Err SecretBody)
    (parseErrorNil : Option (Option Err)) (request : Req) (s : σ) : Result SecretBody Err :=
  match r.httpClient.Do request s with
  | ((response, err), _) =>
    match err with
    | some _ => .returned env.zero env.NewNetworkError
    | none =>
      match response with
      | none => .panicked .nilResponse
      | some response =>
        if response.StatusCode < 200 ∨ response.StatusCode > 299 then
          match response.Body with
          | some body => .returned env.zero (env.ParseError body)
          | none =>
            match parseErrorNil with
            | some e => .returned env.zero e
            | none => .panicked .parseError
        else
          match response.Body with
          | some body => .returned (env.Decode body env.zero).1 none
          | none => .panicked .nilBody

/-- A transport seen as one whose responses carry a non-nil `Body`. -/
def HttpClient.someBody {σ Req Body Err : Type} (c : HttpClient σ Req Body Err) :
    HttpClient σ Req (Option Body) Err where
  Do := fun request s =>
    match c.Do request s with
    | ((response, err), s1) =>
      ((response.map (fun p => ⟨p.StatusCode, some p.Body⟩), err), s1)

/-- An outcome of `SendRequest` as a result of `SendRequestNilBody`. -/
def Outcome.toResult {SecretBody Err : Type} : Outcome SecretBody Err → Result SecretBody Err
  | .returned b e => .returned b e
  | .nilDereference => .panicked .nilResponse

end Repositories

namespace Json

theorem StepOK_error (s : scanner) : StepOK s.error := by
  simp [StepOK, scanner.error]

theorem StepOK_go (code : ScanCode) (s : scanner) (h1 : code ≠ .scanEndObject)
    (h2 : code ≠ .scanEndArray) (herr : s.err = false) (htop : s.endTop = false) :
    StepOK (code, s) := by
  simp [StepOK, h1, h2, herr, htop]

theorem StepOK_pop (code : ScanCode) (s : scanner) (p : ParseState) (rest : List ParseState)
    (hcode : code = .scanEndObject ∨ code = .scanEndArray) (hps : s.parseState = p :: rest)
    (herr : s.err = false) (htop : s.endTop = false) :
    StepOK (code, s.popParseState) := by
  obtain ⟨st, et, ps, er⟩ := s
  simp only at hps herr htop
  subst hps herr htop
  cases rest with
  | nil =>
    refine Or.inr (Or.inr (Or.inl ⟨hcode, Or.inl ?_⟩))
    simp [scanner.popParseState, stateEndValue, stateEndTop, isSpace]
  | cons q rest =>
    refine Or.inr (Or.inr (Or.inl ⟨hcode, Or.inr ?_⟩))
    simp [scanner.popParseState, stateEndValue, isSpace]

theorem stateEndValue_ok (s : scanner) (c : Char) (herr : s.err = false)
    (htop : s.endTop = false) : StepOK (stateEndValue s c) := by
  unfold stateEndValue
  split
  · refine Or.inr (Or.inl ?_)
    unfold stateEndTop
    split <;> rfl
  · rename_i ps rest hps
    split
    · exact StepOK_go _ _ (by decide) (by decide) herr htop
    · cases ps with
      | parseObjectKey =>
        dsimp only
        split
        · exact StepOK_go _ _ (by decide) (by decide) herr htop
        · exact StepOK_error s
      | parseObjectValue =>
        dsimp only
        split
        · exact StepOK_go _ _ (by decide) (by decide) herr htop
        · split
          · exact StepOK_pop _ s _ _ (Or.inl rfl) hps herr htop
          · exact StepOK_error s
      | parseArrayValue =>
        dsimp only
        split
        · exact StepOK_go _ _ (by decide) (by decide) herr htop
        · split
          · exact StepOK_pop _ s _ _ (Or.inr rfl) hps herr htop
          · exact StepOK_error s

theorem stateBeginValue_ok (s : scanner) (c : Char) (herr : s.err = false)
    (htop : s.endTop = false) : StepOK (stateBeginValue s c) := by
  unfold stateBeginValue
  repeat' split
  all_goals
    first
    | exact StepOK_error s
    | exact StepOK_go _ _ (by decide) (by decide) herr htop

theorem stateBeginString_ok (s : scanner) (c : Char) (herr : s.err = false)
    (htop : s.endTop = false) : StepOK (stateBeginString s c) := by
  unfold stateBeginString
  repeat' split
  all_goals
    first
    | exact StepOK_error s
    | exact StepOK_go _ _ (by decide) (by decide) herr htop

theorem stateESign_ok (s : scanner) (c : Char) (herr : s.err = false)
    (htop : s.endTop = false) : StepOK (stateESign s c) := by
  unfold stateESign
  split
  · exact StepOK_go _ _ (by decide) (by decide) herr htop
  · exact StepOK_error s

theorem state0_ok (s : scanner) (c : Char) (herr : s.err = false)
    (htop : s.endTop = false) : StepOK (state0 s c) := by
  unfold state0
  split
  · exact StepOK_go _ _ (by decide) (by decide) herr htop
  · split
    · exact StepOK_go _ _ (by decide) (by decide) herr htop
    · exact stateEndValue_ok s c herr htop

theorem stateHex_ok (next : StepFn) (s : scanner) (c : Char) (herr : s.err = false)
    (htop : s.endTop = false) : StepOK (stateInStringEscHex next s c) := by
  unfold stateInStringEscHex
  split
  · exact StepOK_go _ _ (by decide) (by decide) herr htop
  · exact StepOK_error s

theorem stateLiteral_ok (want : Char) (next : StepFn) (s : scanner) (c : Char)
    (herr : s.err = false) (htop : s.endTop = false) : StepOK (stateLiteral want next s c) := by
  unfold stateLiteral
  split
  · exact StepOK_go _ _ (by decide) (by decide) herr htop
  · exact StepOK_error s

/-- Every step from a scanner without error and before the end of the top-level
value is one of the steps of `StepOK`. -/
theorem run_ok (s : scanner) (c : Char) (herr : s.err = false) (htop : s.endTop = false) :
    StepOK (s.run c) := by
  unfold scanner.run
  split
  · unfold stateBeginValueOrEmpty
    split
    · exact StepOK_go _ _ (by decide) (by decide) herr htop
    · split
      · exact stateEndValue_ok s c herr htop
      · exact stateBeginValue_ok s c herr htop
  · exact stateBeginValue_ok s c herr htop
  · unfold stateBeginStringOrEmpty
    split
    · exact StepOK_go _ _ (by decide) (by decide) herr htop
    · split
      · exact stateEndValue_ok _ c herr htop
      · exact stateBeginString_ok s c herr htop
  · exact stateBeginString_ok s c herr htop
  · exact stateEndValue_ok s c herr htop
  · refine Or.inr (Or.inl ?_)
    unfold stateEndTop
    split <;> rfl
  · unfold stateInString
    repeat' split
    all_goals
      first
      | exact StepOK_error s
      | exact StepOK_go _ _ (by decide) (by decide) herr htop
  · unfold stateInStringEsc
    repeat' split
    all_goals
      first
      | exact StepOK_error s
      | exact StepOK_go _ _ (by decide) (by decide) herr htop
  · exact stateHex_ok _ s c herr htop
  · exact stateHex_ok _ s c herr htop
  · exact stateHex_ok _ s c herr htop
  · exact stateHex_ok _ s c herr htop
  · unfold stateNeg
    repeat' split
    all_goals
      first
      | exact StepOK_error s
      | exact StepOK_go _ _ (by decide) (by decide) herr htop
  · unfold state1
    split
    · exact StepOK_go _ _ (by decide) (by decide) herr htop
    · exact state0_ok s c herr htop
  · exact state0_ok s c herr htop
  · unfold stateDot
    split
    · exact StepOK_go _ _ (by decide) (by decide) herr htop
    · exact StepOK_error s
  · unfold stateDot0
    split
    · exact StepOK_go _ _ (by decide) (by decide) herr htop
    · split
      · exact StepOK_go _ _ (by decide) (by decide) herr htop
      · exact stateEndValue_ok s c herr htop
  · unfold stateE
    split
    · exact StepOK_go _ _ (by decide) (by decide) herr htop
    · exact stateESign_ok s c herr htop
  · exact stateESign_ok s c herr htop
  · unfold stateE0
    split
    · exact StepOK_go _ _ (by decide) (by decide) herr htop
    · exact stateEndValue_ok s c herr htop
  · exact stateLiteral_ok _ _ s c herr htop
  · exact stateLiteral_ok _ _ s c herr htop
  · exact stateLiteral_ok _ _ s c herr htop
  · exact stateLiteral_ok _ _ s c herr htop
  · exact stateLiteral_ok _ _ s c herr htop
  · exact stateLiteral_ok _ _ s c herr htop
  · exact stateLiteral_ok _ _ s c herr htop
  · exact stateLiteral_ok _ _ s c herr htop
  · exact stateLiteral_ok _ _ s c herr htop
  · exact stateLiteral_ok _ _ s c herr htop
  · exact Or.inl rfl

/-- At the end of the input, a scanner without error and before the end of the
top-level value reaches that end only with the code `scanEnd`. -/
theorem run_space_endTop (s : scanner) (herr : s.err = false) (htop : s.endTop = false)
    (h : (s.run ' ').2.endTop = true) : (s.run ' ').1 = .scanEnd := by
  rcases run_ok s ' ' herr htop with h1 | h1 | h1 | h1
  · obtain ⟨st, et, ps, er⟩ := s
    simp only at herr htop
    subst herr htop
    cases st <;>
      simp [scanner.run, stateBeginValueOrEmpty, stateBeginValue, stateBeginStringOrEmpty,
        stateBeginString, stateEndValue, stateEndTop, stateInString, stateInStringEsc,
        stateInStringEscHex, stateNeg, state1, state0, stateDot, stateDot0, stateE, stateESign,
        stateE0, stateLiteral, scanner.error, scanner.pushParseState, scanner.popParseState,
        isSpace, isDigitFrom, isHex] at h ⊢
    all_goals
      cases ps <;> simp_all
  · exact h1
  · obtain ⟨st, et, ps, er⟩ := s
    simp only at herr htop
    subst herr htop
    cases st <;>
      simp [scanner.run, stateBeginValueOrEmpty, stateBeginValue, stateBeginStringOrEmpty,
        stateBeginString, stateEndValue, stateEndTop, stateInString, stateInStringEsc,
        stateInStringEscHex, stateNeg, state1, state0, stateDot, stateDot0, stateE, stateESign,
        stateE0, stateLiteral, scanner.error, scanner.pushParseState, scanner.popParseState,
        isSpace, isDigitFrom, isHex] at h ⊢
    all_goals
      cases ps <;> simp_all
  · rw [h1.2.2.2] at h
    exact absurd h (by decide)

/-- A body on which the scan of the next value fails is not valid JSON: the
loop of `checkValid` stops on the same error, or ends in a scanner on which
`eof` reports an error. -/
theorem checkValidLoop_of_readValueLoop (cs : List Char) :
    ∀ (s : scanner) (n : Nat) (seen : Bool) (e : String), s.err = false → s.endTop = false →
      readValueLoop s n seen cs = .error e →
      (checkValidLoop s cs).all (fun s1 => s1.eof == .scanError) = true := by
  induction cs with
  | nil =>
    intro s n seen e herr htop h
    have hne : (s.run ' ').1 ≠ .scanEnd := by
      intro heq
      simp [readValueLoop, heq] at h
    have hend : (s.run ' ').2.endTop = false := by
      by_contra hc
      exact hne (run_space_endTop s herr htop (by simpa using hc))
    simp [checkValidLoop, scanner.eof, herr, htop, hend]
  | cons c cs ih =>
    intro s n seen e herr htop h
    have hok := run_ok s c herr htop
    rcases hrun : s.run c with ⟨code, s1⟩
    rw [hrun] at hok
    unfold readValueLoop at h
    unfold checkValidLoop
    rw [hrun] at h ⊢
    rcases hok with h1 | h1 | h1 | h1
    · simp only at h1
      subst h1
      simp
    · simp only at h1
      subst h1
      simp at h
    · obtain ⟨hcode, hend⟩ := h1
      simp only at hcode hend
      rcases hend with hend | ⟨hend, herr1, htop1⟩
      · rcases hsev : stateEndValue s1 ' ' with ⟨code2, s2⟩
        rw [hsev] at hend
        simp only at hend
        subst hend
        rcases hcode with hcode | hcode <;> subst hcode <;> simp [hsev] at h
      · rcases hcode with hcode | hcode <;> subst hcode
        · simp only [hend] at h
          simpa using ih s1 _ _ e herr1 htop1 h
        · simp only [hend] at h
          simpa using ih s1 _ _ e herr1 htop1 h
    · obtain ⟨hne1, hne2, herr1, htop1⟩ := h1
      simp only at hne1 hne2 herr1 htop1
      cases code <;> first
        | exact absurd rfl hne1
        | exact absurd rfl hne2
        | exact ih s1 _ _ e herr1 htop1 h
        | rfl
        | simp at h

/-- A body on which `readValue` fails is not `Valid`. -/
theorem Valid_of_readValue_error (body : String) (e : String)
    (h : readValue body = .error e) : Valid body = false := by
  unfold readValue at h
  cases hloop : readValueLoop scanner.reset 0 false body.data with
  | ok n => simp [hloop] at h
  | error e1 =>
    have hall := checkValidLoop_of_readValueLoop body.data scanner.reset 0 false e1 rfl rfl hloop
    unfold Valid checkValid
    cases hcv : checkValidLoop scanner.reset body.data with
    | none => rfl
    | some s1 =>
      rw [hcv] at hall
      simpa using hall

end Json

namespace Repositories

/-- C1: when the transport's `Do` returns a non-nil error, `SendRequest` returns
the zero `SecretBody` with the error of `NewNetworkError()`; the result does not
depend on the raw error nor on a response accompanying it, so it is the same
for every other failing transport call. -/
theorem SendRequest_transport_error {σ Req Body Err SecretBody : Type}
    (r : secretRepository σ Req Body Err)
    (env : Env Body Err SecretBody) (request : Req) (s : σ)
    (response : Option (Response Body)) (e : Err) (s1 : σ)
    (hDo : r.httpClient.Do request s = ((response, some e), s1)) :
    (r.SendRequest env request s).outcome = .returned env.zero env.NewNetworkError ∧
    ∀ (r2 : secretRepository σ Req Body Err) (request2 : Req) (s2 : σ)
      (response2 : Option (Response Body)) (e2 : Err) (s3 : σ),
      r2.httpClient.Do request2 s2 = ((response2, some e2), s3) →
      (r2.SendRequest env request2 s2).outcome = (r.SendRequest env request s).outcome := by
  have key : ∀ (r0 : secretRepository σ Req Body Err) (q : Req) (t : σ)
      (resp : Option (Response Body)) (e0 : Err) (t1 : σ),
      r0.httpClient.Do q t = ((resp, some e0), t1) →
      (r0.SendRequest env q t).outcome = .returned env.zero env.NewNetworkError := by
    intro r0 q t resp e0 t1 h
    simp only [secretRepository.SendRequest, h]
  refine ⟨key r request s response e s1 hDo, ?_⟩
  intro r2 request2 s2 response2 e2 s3 h2
  rw [key r2 request2 s2 response2 e2 s3 h2, key r request s response e s1 hDo]

/-- Witness of C1: a refused connection, compared with a failure that carries a
response. -/
theorem SendRequest_transport_error_witness :
    (NewSecretRepository sampleClient).httpClient.Do "refused" 0 =
      ((none, some "dial tcp: connection refused"), 1) ∧
    ((NewSecretRepository sampleClient).SendRequest sampleEnv "refused" 0).outcome =
      .returned [] (some "No response received for the command.") ∧
    ((NewSecretRepository sampleClient).SendRequest sampleEnv "refused-with-response" 7).outcome =
      ((NewSecretRepository sampleClient).SendRequest sampleEnv "refused" 0).outcome :=
  ⟨rfl,
   (SendRequest_transport_error (NewSecretRepository sampleClient) sampleEnv "refused" 0
      none "dial tcp: connection refused" 1 rfl).1,
   (SendRequest_transport_error (NewSecretRepository sampleClient) sampleEnv "refused" 0
      none "dial tcp: connection refused" 1 rfl).2 (NewSecretRepository sampleClient)
      "refused-with-response" 7 (some ⟨200, "\x7b\"value\":\"v\"\x7d"⟩) "unexpected EOF" 8 rfl⟩

/-- C2: when `Do` returns no error and a response whose status is below 200 or
above 299, `SendRequest` returns the zero `SecretBody` with exactly
`ParseError(response.Body)`, whatever the decoder would make of the body: the
decoder is not called. -/
theorem SendRequest_status_outside_2xx {σ Req Body Err SecretBody : Type}
    (r : secretRepository σ Req Body Err)
    (env : Env Body Err SecretBody) (request : Req) (s : σ)
    (response : Response Body) (s1 : σ)
    (hDo : r.httpClient.Do request s = ((some response, none), s1))
    (hstatus : response.StatusCode < 200 ∨ response.StatusCode > 299) :
    (r.SendRequest env request s).outcome =
      .returned env.zero (env.ParseError response.Body) ∧
    (r.SendRequest env request s).calls.filter Call.isDecode = [] := by
  simp only [secretRepository.SendRequest, hDo, if_pos hstatus]
  and_intros <;> first | rfl | trivial

/-- Witness of C2: status 199 and status 300, each with a body that decodes to a
non-empty `SecretBody`. -/
theorem SendRequest_status_outside_2xx_witness :
    (sampleEnv.Decode "\x7b\"value\":\"v\"\x7d" sampleEnv.zero).1 = [("value", "v")] ∧
    ((NewSecretRepository sampleClient).SendRequest sampleEnv "low" 0).outcome =
      .returned [] (some "\x7b\"value\":\"v\"\x7d") ∧
    ((NewSecretRepository sampleClient).SendRequest sampleEnv "high" 0).outcome =
      .returned [] (some "\x7b\"value\":\"v\"\x7d") :=
  ⟨rfl,
   (SendRequest_status_outside_2xx (NewSecretRepository sampleClient) sampleEnv "low" 0
      ⟨199, "\x7b\"value\":\"v\"\x7d"⟩ 1 rfl (Or.inl (by decide))).1,
   (SendRequest_status_outside_2xx (NewSecretRepository sampleClient) sampleEnv "high" 0
      ⟨300, "\x7b\"value\":\"v\"\x7d"⟩ 1 rfl (Or.inr (by decide))).1⟩

/-- C3: when `Do` returns no error and a response whose status lies in
[200, 299], then for every body the returned error is nil and the returned
`SecretBody` is what the decoder left in a zero-initialised `SecretBody`; the
decoder's own error plays no part. -/
theorem SendRequest_status_2xx {σ Req Body Err SecretBody : Type}
    (r : secretRepository σ Req Body Err)
    (env : Env Body Err SecretBody) (request : Req) (s : σ)
    (response : Response Body) (s1 : σ)
    (hDo : r.httpClient.Do request s = ((some response, none), s1))
    (hlow : 200 ≤ response.StatusCode) (hhigh : response.StatusCode ≤ 299) :
    (r.SendRequest env request s).outcome =
      .returned (env.Decode response.Body env.zero).1 none := by
  have hstatus : ¬ (response.StatusCode < 200 ∨ response.StatusCode > 299) := by omega
  simp only [secretRepository.SendRequest, hDo, if_neg hstatus]

/-- Witness of C3: status 200 and status 299 with a body that decodes, and
status 200 with a body on which the decoder reports an error. -/
theorem SendRequest_status_2xx_witness :
    ((NewSecretRepository sampleClient).SendRequest sampleEnv "first" 0).outcome =
      .returned [("value", "v")] none ∧
    ((NewSecretRepository sampleClient).SendRequest sampleEnv "last" 0).outcome =
      .returned [("value", "v")] none ∧
    (sampleEnv.Decode "" sampleEnv.zero).2 = some "EOF" ∧
    ((NewSecretRepository sampleClient).SendRequest sampleEnv "empty" 0).outcome =
      .returned (sampleEnv.Decode "" sampleEnv.zero).1 none :=
  ⟨SendRequest_status_2xx (NewSecretRepository sampleClient) sampleEnv "first" 0
      ⟨200, "\x7b\"value\":\"v\"\x7d"⟩ 1 rfl (by decide) (by decide),
   SendRequest_status_2xx (NewSecretRepository sampleClient) sampleEnv "last" 0
      ⟨299, "\x7b\"value\":\"v\"\x7d"⟩ 1 rfl (by decide) (by decide),
   rfl,
   SendRequest_status_2xx (NewSecretRepository sampleClient) sampleEnv "empty" 0
      ⟨200, ""⟩ 1 rfl (by decide) (by decide)⟩

/-- C4 (as amended): when the status lies in [200, 299] and the body does not
begin, after white space, with a complete JSON value (the scan of the next
value fails: malformed or cut-off text, or nothing at all as in the empty
body), the call succeeds with a nil error and the zero `SecretBody`; such a
body is never valid JSON. -/
theorem SendRequest_no_value_in_body {σ Req SecretBody : Type}
    (r : secretRepository σ Req String String) (env : Env String String SecretBody)
    (unmarshal : String → SecretBody → SecretBody × Option String)
    (request : Req) (s : σ) (response : Response String) (s1 : σ) (e : String)
    (hdecoder : env.Decode = goDecode unmarshal)
    (hDo : r.httpClient.Do request s = ((some response, none), s1))
    (hlow : 200 ≤ response.StatusCode) (hhigh : response.StatusCode ≤ 299)
    (hbody : Json.readValue response.Body = .error e) :
    (r.SendRequest env request s).outcome = .returned env.zero none ∧
    Json.Valid response.Body = false := by
  have hstatus : ¬ (response.StatusCode < 200 ∨ response.StatusCode > 299) := by omega
  refine ⟨?_, Json.Valid_of_readValue_error _ e hbody⟩
  simp only [secretRepository.SendRequest, hDo, if_neg hstatus, hdecoder, goDecode, jsonDecode,
    hbody]

/-- Witness of C4 (as amended): status 200 with the empty body, and status 299
with a body that is cut off inside an object. -/
theorem SendRequest_no_value_in_body_witness :
    Json.readValue "" = .error "EOF" ∧
    ((NewSecretRepository (respondingClient 200 "")).SendRequest goEnv "GET" 0).outcome =
      .returned [] none ∧
    Json.readValue "\x7b\"value\":" = .error "unexpected EOF" ∧
    ((NewSecretRepository (respondingClient 299 "\x7b\"value\":")).SendRequest
      goEnv "GET" 0).outcome = .returned [] none :=
  ⟨rfl,
   (SendRequest_no_value_in_body (NewSecretRepository (respondingClient 200 "")) goEnv
      valueUnmarshal "GET" 0 ⟨200, ""⟩ 1 "EOF" rfl rfl (by decide) (by decide) rfl).1,
   rfl,
   (SendRequest_no_value_in_body (NewSecretRepository (respondingClient 299 "\x7b\"value\":"))
      goEnv valueUnmarshal "GET" 0 ⟨299, "\x7b\"value\":"⟩ 1 "unexpected EOF" rfl rfl
      (by decide) (by decide) rfl).1⟩

/-- Counterexample to C4 as stated: the body `{"value":"v"}garbage` is not valid
JSON, yet with status 200 the decoder takes the object in front of the
trailing bytes and `SendRequest` returns the decoded, non-zero `SecretBody`
with a nil error. -/
theorem SendRequest_trailing_bytes_decoded :
    Json.Valid "\x7b\"value\":\"v\"\x7dgarbage" = false ∧
    Json.readValue "\x7b\"value\":\"v\"\x7dgarbage" = .ok "\x7b\"value\":\"v\"\x7d" ∧
    ((NewSecretRepository
      (respondingClient 200 "\x7b\"value\":\"v\"\x7dgarbage")).SendRequest
        goEnv "GET" 0).outcome = .returned [("value", "v")] none ∧
    ((NewSecretRepository
      (respondingClient 200 "\x7b\"value\":\"v\"\x7dgarbage")).SendRequest
        goEnv "GET" 0).outcome ≠ .returned goEnv.zero none :=
  ⟨rfl, rfl, rfl, by decide⟩

/-- C5: every call of `SendRequest` that returns gives a zero `SecretBody` with a
non-nil error, a nil error with a decoded `SecretBody`, and never a non-zero
`SecretBody` with a non-nil error; the only call that does not return is the
one where `Do` gave neither a response nor an error. -/
theorem SendRequest_body_or_error {σ Req Body Err SecretBody : Type}
    (r : secretRepository σ Req Body Err)
    (env : Env Body Err SecretBody) (request : Req) (s : σ) :
    ((r.SendRequest env request s).outcome = .nilDereference ∧
      (r.httpClient.Do request s).1 = (none, none)) ∨
    ∃ (b : SecretBody) (e : Option Err),
      (r.SendRequest env request s).outcome = .returned b e ∧
      (e ≠ none → b = env.zero) ∧
      ((r.SendRequest env request s).calls.filter Call.isDecode ≠ [] → e = none) ∧
      ¬ (b ≠ env.zero ∧ e ≠ none) := by
  unfold secretRepository.SendRequest
  rcases hDo : r.httpClient.Do request s with ⟨⟨response, err⟩, s1⟩
  cases err with
  | some e0 =>
    right
    refine ⟨env.zero, env.NewNetworkError, rfl, fun _ => rfl, ?_, fun h => h.1 rfl⟩
    intro h
    exact absurd rfl h
  | none =>
    cases response with
    | none => left; exact ⟨rfl, rfl⟩
    | some response =>
      right
      by_cases hstatus : response.StatusCode < 200 ∨ response.StatusCode > 299
      · refine ⟨env.zero, env.ParseError response.Body, ?_, fun _ => rfl, ?_, fun h => h.1 rfl⟩
        · simp only [if_pos hstatus]
        · intro h
          simp only [if_pos hstatus] at h
          exact absurd rfl h
      · refine ⟨(env.Decode response.Body env.zero).1, none, ?_, fun h => absurd rfl h,
          fun _ => rfl, fun h => h.2 rfl⟩
        simp only [if_neg hstatus]

/-- C6: one error kind per failed call. After a transport error the returned
error is that of `NewNetworkError()` and `ParseError` is not called; after a
response with a status outside [200, 299] and no transport error the returned
error is `ParseError(response.Body)` and `NewNetworkError` is not called. -/
theorem SendRequest_one_error_kind {σ Req Body Err SecretBody : Type}
    (r : secretRepository σ Req Body Err)
    (env : Env Body Err SecretBody) (request : Req) (s : σ) :
    (∀ (response : Option (Response Body)) (e : Err) (s1 : σ),
      r.httpClient.Do request s = ((response, some e), s1) →
      (r.SendRequest env request s).outcome = .returned env.zero env.NewNetworkError ∧
      (r.SendRequest env request s).calls.filter Call.isNewNetworkError = [.NewNetworkError] ∧
      (r.SendRequest env request s).calls.filter Call.isParseError = []) ∧
    (∀ (response : Response Body) (s1 : σ),
      r.httpClient.Do request s = ((some response, none), s1) →
      (response.StatusCode < 200 ∨ response.StatusCode > 299) →
      (r.SendRequest env request s).outcome =
        .returned env.zero (env.ParseError response.Body) ∧
      (r.SendRequest env request s).calls.filter Call.isParseError =
        [.ParseError response.Body] ∧
      (r.SendRequest env request s).calls.filter Call.isNewNetworkError = []) := by
  constructor
  · intro response e s1 hDo
    simp only [secretRepository.SendRequest, hDo]
    and_intros <;> first | rfl | trivial
  · intro response s1 hDo hstatus
    simp only [secretRepository.SendRequest, hDo, if_pos hstatus]
    and_intros <;> first | rfl | trivial

/-- Witness of C6: a refused connection and a 404 response. -/
theorem SendRequest_one_error_kind_witness :
    (((NewSecretRepository sampleClient).SendRequest sampleEnv "refused" 0).outcome =
        .returned [] (some "No response received for the command.") ∧
      ((NewSecretRepository sampleClient).SendRequest sampleEnv "refused" 0).calls =
        [.Do "refused", .NewNetworkError]) ∧
    (((NewSecretRepository sampleClient).SendRequest sampleEnv "missing" 0).outcome =
        .returned [] (some "\x7b\"error\":\"not found\"\x7d") ∧
      ((NewSecretRepository sampleClient).SendRequest sampleEnv "missing" 0).calls =
        [.Do "missing", .ParseError "\x7b\"error\":\"not found\"\x7d"]) :=
  ⟨⟨((SendRequest_one_error_kind (NewSecretRepository sampleClient) sampleEnv "refused" 0).1
        none "dial tcp: connection refused" 1 rfl).1, rfl⟩,
   ⟨((SendRequest_one_error_kind (NewSecretRepository sampleClient) sampleEnv "missing" 0).2
        ⟨404, "\x7b\"error\":\"not found\"\x7d"⟩ 1 rfl (Or.inr (by decide))).1, rfl⟩⟩

/-- C7: on every path `SendRequest` calls the transport's `Do` exactly once, first,
with the request it was given, and leaves the transport in the state that one
call produced: there is no second call after a failure or a non-2xx status. -/
theorem SendRequest_calls_Do_once {σ Req Body Err SecretBody : Type}
    (r : secretRepository σ Req Body Err)
    (env : Env Body Err SecretBody) (request : Req) (s : σ) :
    (r.SendRequest env request s).calls.filter Call.isDo = [.Do request] ∧
    (r.SendRequest env request s).calls.head? = some (.Do request) ∧
    (r.SendRequest env request s).transport = (r.httpClient.Do request s).2 := by
  unfold secretRepository.SendRequest
  rcases hDo : r.httpClient.Do request s with ⟨⟨response, err⟩, s1⟩
  cases err with
  | some e0 => exact ⟨rfl, rfl, rfl⟩
  | none =>
    cases response with
    | none => exact ⟨rfl, rfl, rfl⟩
    | some response =>
      by_cases hstatus : response.StatusCode < 200 ∨ response.StatusCode > 299
      · dsimp only
        rw [if_pos hstatus]
        exact ⟨rfl, rfl, rfl⟩
      · dsimp only
        rw [if_neg hstatus]
        exact ⟨rfl, rfl, rfl⟩

/-- On responses with a non-nil `Body`, `SendRequestNilBody` ends as `SendRequest`
does. -/
theorem SendRequestNilBody_someBody {σ Req Body Err SecretBody : Type}
    (r : secretRepository σ Req Body Err) (env : Env Body Err SecretBody)
    (parseErrorNil : Option (Option Err)) (request : Req) (s : σ) :
    (NewSecretRepository r.httpClient.someBody).SendRequestNilBody env parseErrorNil request s =
      (r.SendRequest env request s).outcome.toResult := by
  rcases hDo : r.httpClient.Do request s with ⟨⟨response, err⟩, s1⟩
  simp only [secretRepository.SendRequestNilBody, secretRepository.SendRequest,
    NewSecretRepository, HttpClient.someBody, hDo]
  cases err with
  | some e0 => rfl
  | none =>
    cases response with
    | none => rfl
    | some response =>
      by_cases hstatus : response.StatusCode < 200 ∨ response.StatusCode > 299
      · simp [hstatus, Outcome.toResult]
      · simp [hstatus, Outcome.toResult]

/-- C10 (as amended): when `Do` returns, whenever it returns a nil error, a
non-nil response whose `Body` is non-nil, `SendRequest` reads the status and
the body and returns a pair; when `Do` returns a nil response with a nil
error, the status read is a nil dereference; when a response with a status in
[200, 299] has a nil `Body`, the decoder's read is a nil dereference. -/
theorem SendRequest_total_of_body {σ Req Body Err SecretBody : Type}
    (r : secretRepository σ Req (Option Body) Err) (env : Env Body Err SecretBody)
    (parseErrorNil : Option (Option Err)) (request : Req) (s : σ) :
    (((r.httpClient.Do request s).1.2 = none →
        ∃ (response : Response (Option Body)) (body : Body),
          (r.httpClient.Do request s).1.1 = some response ∧ response.Body = some body) →
      ∃ (b : SecretBody) (e : Option Err),
        r.SendRequestNilBody env parseErrorNil request s = .returned b e) ∧
    ((r.httpClient.Do request s).1 = (none, none) →
      r.SendRequestNilBody env parseErrorNil request s = .panicked .nilResponse) ∧
    (∀ response : Response (Option Body),
      (r.httpClient.Do request s).1 = (some response, none) →
      200 ≤ response.StatusCode → response.StatusCode ≤ 299 → response.Body = none →
      r.SendRequestNilBody env parseErrorNil request s = .panicked .nilBody) := by
  unfold secretRepository.SendRequestNilBody
  rcases hDo : r.httpClient.Do request s with ⟨⟨response, err⟩, s1⟩
  cases err with
  | some e0 =>
    refine ⟨fun _ => ⟨env.zero, env.NewNetworkError, rfl⟩, ?_, ?_⟩
    · intro h
      simp at h
    · intro response0 h
      simp at h
  | none =>
    cases response with
    | none =>
      refine ⟨fun h => ?_, fun _ => rfl, ?_⟩
      · obtain ⟨response0, _, h0, _⟩ := h rfl
        simp at h0
      · intro response0 h
        simp at h
    | some response =>
      refine ⟨fun h => ?_, ?_, ?_⟩
      · obtain ⟨response0, body, h0, hbody⟩ := h rfl
        simp only [Option.some.injEq] at h0
        subst h0
        by_cases hstatus : response.StatusCode < 200 ∨ response.StatusCode > 299
        · exact ⟨env.zero, env.ParseError body, by simp [hstatus, hbody]⟩
        · exact ⟨(env.Decode body env.zero).1, none, by simp [hstatus, hbody]⟩
      · intro h
        simp at h
      · intro response0 h hlow hhigh hbody
        simp only [Prod.mk.injEq, Option.some.injEq, and_true] at h
        subst h
        have hstatus : ¬ (response.StatusCode < 200 ∨ response.StatusCode > 299) := by omega
        simp [hstatus, hbody]

/-- Witness of C10 (as amended): a response with a body returns a pair; neither
response nor error ends in the nil dereference of the response. -/
theorem SendRequest_total_of_body_witness :
    (∃ (b : List (String × String)) (e : Option String),
      (NewSecretRepository sampleClient.someBody).SendRequestNilBody sampleEnv none "first" 0 =
        .returned b e) ∧
    (NewSecretRepository sampleClient.someBody).SendRequestNilBody sampleEnv none "nil" 0 =
      .panicked .nilResponse :=
  ⟨(SendRequest_total_of_body (NewSecretRepository sampleClient.someBody) sampleEnv none
      "first" 0).1 (fun _ => ⟨⟨200, some "\x7b\"value\":\"v\"\x7d"⟩, "\x7b\"value\":\"v\"\x7d",
        rfl, rfl⟩),
   (SendRequest_total_of_body (NewSecretRepository sampleClient.someBody) sampleEnv none
      "nil" 0).2.1 rfl⟩

/-- Counterexample to C10 as stated: `Do` returns a nil error with a non-nil
response, status 200, whose `Body` is nil; the precondition of the claim holds
and `SendRequest` does not return: the decoder reads from the nil `Body`. -/
theorem SendRequest_nil_body_panics :
    (((respondingClient 200 (none : Option String)).Do "GET" 0).1.2 = none →
      ((respondingClient 200 (none : Option String)).Do "GET" 0).1.1 ≠ none) ∧
    (NewSecretRepository (respondingClient 200 (none : Option String))).SendRequestNilBody
      sampleEnv (some none) "GET" 0 = .panicked .nilBody ∧
    ¬ ∃ (b : List (String × String)) (e : Option String),
      (NewSecretRepository (respondingClient 200 (none : Option String))).SendRequestNilBody
        sampleEnv (some none) "GET" 0 = .returned b e := by
  refine ⟨fun _ => by simp [respondingClient], rfl, ?_⟩
  rintro ⟨b, e, h⟩
  exact Result.noConfusion (h.symm.trans (rfl : _ = Result.panicked Panic.nilBody))

end Repositories

namespace Commands

/-- A separator found in a text is found at the same place when the text goes on. -/
theorem startsWithSeparator_append (l m : List Char) (h : startsWithSeparator l = true) :
    startsWithSeparator (l ++ m) = true := by
  match l, h with
  | a :: b :: c :: rest, h => simpa [startsWithSeparator] using h

/-- The text in front of the first separator does not change when the target
goes on. -/
theorem schemeChars_append (l m s : List Char) (h : schemeChars l = some s) :
    schemeChars (l ++ m) = some s := by
  induction l generalizing s with
  | nil => simp [schemeChars] at h
  | cons c cs ih =>
    by_cases hsep : startsWithSeparator (c :: cs) = true
    · have hsep2 := startsWithSeparator_append (c :: cs) m hsep
      rw [List.cons_append] at hsep2 ⊢
      simp only [schemeChars, hsep, hsep2, if_true] at h ⊢
      exact h
    · simp only [schemeChars, hsep, Bool.false_eq_true, if_false, Option.map_eq_some'] at h
      obtain ⟨t, ht, rfl⟩ := h
      have hsep2 : startsWithSeparator (c :: cs ++ m) = false := by
        match cs, ht, hsep with
        | [], ht, _ => simp [schemeChars] at ht
        | [a], ht, _ => simp [schemeChars, startsWithSeparator] at ht
        | a :: b :: rest, _, hsep => simpa [startsWithSeparator] using hsep
      rw [List.cons_append] at hsep2 ⊢
      simp only [schemeChars, hsep2, Bool.false_eq_true, if_false, ih t ht, Option.map_some']

/-- A scheme specified by a target is the scheme of every extension of the target. -/
theorem schemeOf_append (target rest scheme : String) (h : schemeOf target = some scheme) :
    schemeOf (target ++ rest) = some scheme := by
  unfold schemeOf at h ⊢
  cases hc : schemeChars target.data with
  | none => simp [hc] at h
  | some s =>
    rw [String.data_append, schemeChars_append _ _ _ hc]
    simpa [hc] using h

/-- The scheme of a target that starts with `https://` is `https`. -/
theorem schemeOf_https (rest : String) : schemeOf ("https://" ++ rest) = some "https" := by
  unfold schemeOf
  rw [String.data_append]
  have h : schemeChars ("https://".data ++ rest.data) = some "https".data := by
    show schemeChars ('h' :: 't' :: 't' :: 'p' :: 's' :: ':' :: '/' :: '/' :: rest.data) = _
    simp [schemeChars, startsWithSeparator]
  rw [h]

/-- C8: when the probe of a supplied target comes back with a status outside
[200, 299], the `api` command leaves the persisted record as it was, exits with
a non-zero status and reports the fixed message; a following `api` without an
argument exits with zero and prints the API URL persisted before. -/
theorem api_retains_previous_target (c : Collaborators) (rawTarget : String)
    (store : Option TargetRecord) (status : Nat) (body : String)
    (hsupplied : rawTarget ≠ "")
    (hprobe : c.probe (probeURL rawTarget) = .response status body)
    (hstatus : status < 200 ∨ 299 < status) :
    (api c rawTarget store).2 = store ∧
    (api c rawTarget store).1.exitCode ≠ 0 ∧
    (api c rawTarget store).1.err = [invalidTargetMessage] ∧
    ∀ record : TargetRecord, store = some record →
      (api c "" (api c rawTarget store).2).1.out = [record.ApiURL] ∧
      (api c "" (api c rawTarget store).2).1.exitCode = 0 ∧
      (api c "" (api c rawTarget store).2).2 = store := by
  have hne : status ≠ 200 := by omega
  have hrun : api c rawTarget store =
      ({ exitCode := 1, out := [], err := [invalidTargetMessage] }, store) := by
    simp only [api, if_neg hsupplied, hprobe, validate, if_neg hne]
  rw [hrun]
  refine ⟨rfl, Nat.one_ne_zero, rfl, ?_⟩
  intro record hrecord
  subst hrecord
  exact ⟨rfl, rfl, rfl⟩

/-- Witness of C8: after the good server was targeted, the bad server answers the
probe with 404 and an empty body. -/
theorem api_retains_previous_target_witness :
    api testServers "https://127.0.0.1:8844" none =
      ({ exitCode := 0, out := ["https://127.0.0.1:8844"], err := [] }, some goodRecord) ∧
    testServers.probe (probeURL "https://127.0.0.1:9999") = .response 404 "" ∧
    api testServers "https://127.0.0.1:9999" (some goodRecord) =
      ({ exitCode := 1, out := [], err := ["The targeted API does not appear to be valid."] },
        some goodRecord) ∧
    (api testServers "" (api testServers "https://127.0.0.1:9999" (some goodRecord)).2).1.out =
      ["https://127.0.0.1:8844"] :=
  ⟨by decide, by decide, by decide,
   ((api_retains_previous_target testServers "https://127.0.0.1:9999" (some goodRecord) 404 ""
      (by decide) (by decide) (Or.inr (by decide))).2.2.2 goodRecord rfl).1⟩

/-- C9: a target that specifies no scheme is resolved to `https://` followed by
the target, so the base URL and the probe URL use `https`; a target that
specifies a scheme is resolved to itself, so the base URL, the probe URL and the
persisted API URL keep that scheme verbatim. -/
theorem resolveBase_scheme_rule (rawTarget : String) :
    (schemeOf rawTarget = none →
      resolveBase rawTarget = "https://" ++ rawTarget ∧
      schemeOf (resolveBase rawTarget) = some "https" ∧
      schemeOf (probeURL rawTarget) = some "https") ∧
    (∀ scheme : String, schemeOf rawTarget = some scheme →
      resolveBase rawTarget = rawTarget ∧
      schemeOf (resolveBase rawTarget) = some scheme ∧
      schemeOf (probeURL rawTarget) = some scheme ∧
      ∀ (c : Collaborators) (store : Option TargetRecord) (info : InfoResponse),
        validate c (c.probe (probeURL rawTarget)) = some info →
        (api c rawTarget store).2 =
          some { ApiURL := rawTarget
                 AuthURL := info.AuthServer.URL
                 AuthClientID := info.AuthServer.ClientID }) := by
  constructor
  · intro hnone
    have hbase : resolveBase rawTarget = "https://" ++ rawTarget := by
      simp only [resolveBase, hnone]
    refine ⟨hbase, ?_, ?_⟩
    · rw [hbase]
      exact schemeOf_https rawTarget
    · unfold probeURL
      rw [hbase]
      exact schemeOf_append _ _ _ (schemeOf_https rawTarget)
  · intro scheme hscheme
    have hbase : resolveBase rawTarget = rawTarget := by
      simp only [resolveBase, hscheme]
    have hsupplied : rawTarget ≠ "" := by
      intro hempty
      rw [hempty] at hscheme
      have hempty2 : schemeOf "" = none := by decide
      rw [hempty2] at hscheme
      exact Option.noConfusion hscheme
    refine ⟨hbase, ?_, ?_, ?_⟩
    · rw [hbase]
      exact hscheme
    · unfold probeURL
      rw [hbase]
      exact schemeOf_append _ _ _ hscheme
    · intro c store info hvalid
      simp only [api, if_neg hsupplied, hvalid, hbase]

/-- Witness of C9: the bare address `127.0.0.1:8844` is resolved to an `https`
URL, and the URL `http://127.0.0.1:8080` keeps `http` when it is persisted. -/
theorem resolveBase_scheme_rule_witness :
    schemeOf "127.0.0.1:8844" = none ∧
    resolveBase "127.0.0.1:8844" = "https://127.0.0.1:8844" ∧
    schemeOf (probeURL "127.0.0.1:8844") = some "https" ∧
    schemeOf "http://127.0.0.1:8080" = some "http" ∧
    schemeOf (resolveBase "http://127.0.0.1:8080") = some "http" ∧
    (api testServers "http://127.0.0.1:8080" none).2 =
      some { ApiURL := "http://127.0.0.1:8080"
             AuthURL := "https://example.com"
             AuthClientID := "bar" } :=
  ⟨by decide,
   ((resolveBase_scheme_rule "127.0.0.1:8844").1 (by decide)).1,
   ((resolveBase_scheme_rule "127.0.0.1:8844").1 (by decide)).2.2,
   by decide,
   ((resolveBase_scheme_rule "http://127.0.0.1:8080").2 "http" (by decide)).2.1,
   ((resolveBase_scheme_rule "http://127.0.0.1:8080").2 "http" (by decide)).2.2.2
      testServers none
      { AppVersion := "0.1.0 build DEV"
        AppName := "Pivotal Credential Manager"
        AuthServer := { URL := "https://example.com", ClientID := "bar" } } (by decide)⟩

end Commands
